import Mathlib

/-!
Shallow embedding of the aiotftp TFTP implementation

This file embeds the parts of the `aiotftp` Python package
(`packets.py`, `utils.py`, `netascii.py`, `iofile.py`, `protocols.py`)
needed to settle the claims about its specification, and proves or
refutes each claim.

Conventions of the embedding:

* Python `bytes` values are `List Nat` (each element a byte value);
  Python `str` values are also `List Nat` (ASCII code points — every
  string handled by the claims is ASCII).
* Python exceptions (`ValueError`, `UnicodeDecodeError`, `IOError`,
  `FileExistsError`, ...) are modelled with `Except Unit`.
* Dynamically typed Python values appearing in option dictionaries are
  modelled by the sum type `PyVal` (`str` / `bytes` / `int`); Python
  equality between a `bytes` and a `str` key is always false, which
  the structural equality of `PyVal` reproduces.
* The host platform is POSIX: `os.linesep` is the single byte LF and
  `PurePath.is_reserved()` is constantly `False`.
-/

namespace Aiotftp

/-- A Python byte value (0–255 in the source; the embedding does not
restrict the range because no claim depends on it). -/
abbrev Byte := Nat

/-- A network address `(host, port)` as passed by asyncio to
`datagram_received`; hosts are abstracted to numeric identifiers, only
equality of the components matters. -/
abbrev Addr := Nat × Nat

/-- Dynamically typed Python values stored in option dictionaries:
`str` (ASCII code points), `bytes`, or `int`.  Structural equality
mirrors Python equality on these types: a `bytes` value never equals a
`str` value. -/
inductive PyVal where
  | str (s : List Byte)
  | bytes (b : List Byte)
  | int (n : Int)
deriving DecidableEq, Repr

/-- ASCII bytes of the option name blksize. -/
def blksizeName : List Byte := [98, 108, 107, 115, 105, 122, 101]

/-- ASCII bytes of the option name timeout. -/
def timeoutName : List Byte := [116, 105, 109, 101, 111, 117, 116]

/-- ASCII bytes of the option name tsize. -/
def tsizeName : List Byte := [116, 115, 105, 122, 101]

/-- ASCII bytes of the option name windowsize. -/
def windowsizeName : List Byte := [119, 105, 110, 100, 111, 119, 115, 105, 122, 101]

/-- ASCII bytes of the message Unrecognized transfer id. -/
def unknownTidMessage : List Byte :=
  [85, 110, 114, 101, 99, 111, 103, 110, 105, 122, 101, 100, 32,
   116, 114, 97, 110, 115, 102, 101, 114, 32, 105, 100]

/-- Models `str.encode(encoding)` for an ASCII codec (also
`bytes(s, ascii)`): identity on code points below 128, raises
`UnicodeEncodeError` otherwise. -/
def ascii_encode (s : List Byte) : Except Unit (List Byte) :=
  if s.all (fun c => c < 128) then .ok s else .error ()

/-- Models `bytes.decode(encoding=ascii)`: identity on bytes below
128, raises `UnicodeDecodeError` otherwise. -/
def ascii_decode (b : List Byte) : Except Unit (List Byte) :=
  if b.all (fun c => c < 128) then .ok b else .error ()

/-- Models `bytes.decode()` (UTF-8) on the ASCII fragment: identity on
bytes below 128.  Multi-byte UTF-8 sequences are outside the fragment
exercised by the claims (every transfer mode and option string in play
is ASCII), so bytes at or above 128 are mapped to an error here and all
theorems touching this function restrict their inputs to ASCII bytes. -/
def utf8_decode (b : List Byte) : Except Unit (List Byte) :=
  if b.all (fun c => c < 128) then .ok b else .error ()

/-- Decimal ASCII digits of a natural number, as produced by Python
`str(n)` for `n ≥ 0`. -/
def natDecimalBytes (n : Nat) : List Byte := (Nat.toDigits 10 n).map Char.toNat

/-- Models Python `str(n)` for an `int`, as ASCII bytes. -/
def intDecimalBytes (n : Int) : List Byte :=
  if n < 0 then 45 :: natDecimalBytes n.natAbs else natDecimalBytes n.natAbs

/-- Models Python `int(x)` on the fragment used by the option
validators: an `int` is returned unchanged, a `str`/`bytes` of decimal
digits (with an optional leading minus sign) is parsed, anything else
raises `ValueError`. -/
def pyint (v : PyVal) : Except Unit Int :=
  match v with
  | .int n => .ok n
  | .str s => pyintOfDigits s
  | .bytes b => pyintOfDigits b
where
  /-- Parse an ASCII decimal literal (optional minus sign, at least one
  digit), as `int()` does on such strings. -/
  pyintOfDigits (s : List Byte) : Except Unit Int :=
    match s with
    | 45 :: rest => do pure (-(← digitsToNat rest))
    | _ => do pure ((← digitsToNat s) : Int)
  /-- Digits-only parse of a nonempty ASCII digit string. -/
  digitsToNat (s : List Byte) : Except Unit Nat :=
    if s ≠ [] ∧ s.all (fun c => 48 ≤ c ∧ c ≤ 57) then
      .ok (s.foldl (fun a c => a * 10 + (c - 48)) 0)
    else .error ()

/-- Models `list.split(sep)` for a single-element separator, as Python
`bytes.split` behaves: splitting `[1,0,0,2]` on `0` yields
`[[1],[],[2]]`, and the empty input yields `[[]]`. -/
def pysplit (sep : Byte) : List Byte → List (List Byte)
  | [] => [[]]
  | b :: rest =>
    if b = sep then [] :: pysplit sep rest
    else
      match pysplit sep rest with
      | [] => [[b]]
      | s :: ss => (b :: s) :: ss

/-- Models Python `l[::2]` (every other element starting at index 0). -/
def slice2 : List α → List α
  | [] => []
  | [a] => [a]
  | a :: _ :: rest => a :: slice2 rest

/-- Insert-or-update into an ordered association list, following Python
`dict` insertion semantics: an existing key keeps its position and gets
the new value, a new key is appended. -/
def dictSet (d : List (PyVal × PyVal)) (k v : PyVal) : List (PyVal × PyVal) :=
  if d.any (fun kv => kv.1 = k) then
    d.map (fun kv => if kv.1 = k then (k, v) else kv)
  else d ++ [(k, v)]

/-- Build a Python `dict` from a pair list, later occurrences of a key
overriding earlier ones (`dict(zip(...))`). -/
def mkDict (ps : List (PyVal × PyVal)) : List (PyVal × PyVal) :=
  ps.foldl (fun d kv => dictSet d kv.1 kv.2) []

/-- Key membership in an ordered association list (`key in d.keys()`),
comparing with Python equality on `PyVal`. -/
def dictHasKey (d : List (PyVal × PyVal)) (k : PyVal) : Bool :=
  d.any (fun kv => kv.1 = k)

/-- Lookup in an ordered association list. -/
def dictGet (d : List (PyVal × PyVal)) (k : PyVal) : Option PyVal :=
  (d.find? (fun kv => kv.1 = k)).map (fun kv => kv.2)

/-! ## `utils.py` — option validators (transcribed literally, including
the swapped comparison branches of the source) -/

/-- Models `utils.ensure_blksize` with its default bounds: the source clamps
values above 65464 via `value - (value - upper_bound)`, raises
`ValueError` when `value > lower_bound` (i.e. on the mid range), and
returns everything else (`value ≤ 8`) unchanged. -/
def ensure_blksize (value : Int) : Except Unit Int :=
  if value > 65464 then .ok (value - (value - 65464))
  else if value > 8 then .error ()
  else .ok value

/-- Models `utils.ensure_windowsize` with its default bounds, same shape as
`ensure_blksize` with upper bound 65535 and lower bound 1. -/
def ensure_windowsize (value : Int) : Except Unit Int :=
  if value > 65535 then .ok (value - (value - 65535))
  else if value > 1 then .error ()
  else .ok value

/-- Models `utils.ensure_timeout`, restricted to the integer fragment of the
embedding (the source converts to `float`; no claim exercises
fractional timeouts): raises outside `[1, 255]`. -/
def ensure_timeout (value : Int) : Except Unit Int :=
  if value > 255 ∨ value < 1 then .error () else .ok value

/-- Models `utils.ensure_tsize`: `int(value)`, no bounds enforced. -/
def ensure_tsize (value : Int) : Except Unit Int := .ok value

/-! ## `netascii.py` -/

/-- The platform newline `os.linesep` on POSIX: a single LF byte. -/
def NL : List Byte := [10]

/-- Models `NETASCII.to_netascii`: the regex substitution replacing the
platform newline (LF on POSIX) by CR LF and a bare CR by CR NUL,
scanning left to right without overlap. -/
def to_netascii : List Byte → List Byte
  | [] => []
  | b :: rest =>
    if b = 10 then 13 :: 10 :: to_netascii rest
    else if b = 13 then 13 :: 0 :: to_netascii rest
    else b :: to_netascii rest

/-- Models `NETASCII.from_netascii`: the regex substitution replacing CR LF by
the platform newline (LF on POSIX) and CR NUL by a bare CR, scanning
left to right without overlap. -/
def from_netascii : List Byte → List Byte
  | [] => []
  | [b] => [b]
  | b :: c :: rest =>
    if b = 13 ∧ c = 10 then 10 :: from_netascii rest
    else if b = 13 ∧ c = 0 then 13 :: from_netascii rest
    else b :: from_netascii (c :: rest)

/-- The mutable state of a `NETASCII` wrapper used in the write
direction: the carried-over `_buffer` (empty or a single buffered CR)
and the bytes written so far to the underlying file handle. -/
structure NetasciiW where
  buffer : List Byte
  file : List Byte
deriving DecidableEq, Repr

/-- Models `NETASCII.write`: prepend the buffered bytes, buffer a trailing
lone CR for the next call, translate the rest from netascii and write
it through to the file handle. -/
def NETASCII.write (st : NetasciiW) (data0 : List Byte) : NetasciiW :=
  let data1 := st.buffer ++ data0
  if data1.getLast? = some 13 then
    { buffer := [13], file := st.file ++ from_netascii data1.dropLast }
  else
    { buffer := [], file := st.file ++ from_netascii data1 }

/-- Feed a sequence of chunks through `NETASCII.write`. -/
def writeChunks (cs : List (List Byte)) (st : NetasciiW) : NetasciiW :=
  cs.foldl NETASCII.write st

/-! ## `packets.py` -/

/-- The six packet types recognized by `BaseTFTPPacket.PacketTypes`. -/
inductive PType where
  | rrq | wrq | dat | ack | err | ock
deriving DecidableEq, Repr

/-- Models `PacketTypes.encode`: type tag to 2-byte wire opcode. -/
def PType.code : PType → List Byte
  | .rrq => [0, 1]
  | .wrq => [0, 2]
  | .dat => [0, 3]
  | .ack => [0, 4]
  | .err => [0, 5]
  | .ock => [0, 6]

/-- Models `PacketTypes.decode`: 2-byte wire opcode to type tag, raising
`ValueError` on anything that is not one of the six codes (including
truncated inputs, since a short slice equals no code). -/
def PType.decode (code : List Byte) : Except Unit PType :=
  if code = [0, 1] then .ok .rrq
  else if code = [0, 2] then .ok .wrq
  else if code = [0, 3] then .ok .dat
  else if code = [0, 4] then .ok .ack
  else if code = [0, 5] then .ok .err
  else if code = [0, 6] then .ok .ock
  else .error ()

/-- The packet variants of `packets.py` as one tagged union.  Field
types record what the constructors of the source store after
`__init__` ran: a request holds `str` filename and mode (the mode is
decoded from bytes in the constructor) and an options dict; an error
message of an error packet is a `PyVal` because constructed packets store a
`str` while decoded ones store raw `bytes`. -/
inductive Packet where
  | req (isWrite : Bool) (fname : List Byte) (mode : List Byte)
        (options : List (PyVal × PyVal))
  | dat (block_no : Int) (data : List Byte)
  | ack (block_no : Int)
  | err (code : Int) (message : PyVal)
  | ock (options : List (PyVal × PyVal))
deriving DecidableEq, Repr

/-- Models `BaseTFTPPacket.pack_short`: `n.to_bytes(2, big)`, raising
`OverflowError` outside `[0, 65535]`. -/
def pack_short (n : Int) : Except Unit (List Byte) :=
  if 0 ≤ n ∧ n < 65536 then .ok [(n / 256).toNat, (n % 256).toNat]
  else .error ()

/-- Models `BaseTFTPPacket.unpack_short`: `int.from_bytes(data, big)` over a
slice of any length (an empty slice yields 0, as in Python). -/
def unpack_short (b : List Byte) : Int :=
  b.foldl (fun a x => a * 256 + (x : Int)) 0

/-- Models `BaseTFTPPacket._to_bytes`: `bytes` pass through, anything else is
`str(other).encode(ascii)` (identity for ASCII `str`, decimal text
for `int`). -/
def to_bytes (v : PyVal) : Except Unit (List Byte) :=
  match v with
  | .bytes b => .ok b
  | .str s => ascii_encode s
  | .int n => .ok (intDecimalBytes n)

/-- Models `BaseTFTPPacket.serialize_options`: flatten the dict items and join
the `_to_bytes` images with NUL. -/
def serialize_options (options : List (PyVal × PyVal)) : Except Unit (List Byte) := do
  let items := options.flatMap (fun kv => [kv.1, kv.2])
  let bs ← items.mapM to_bytes
  pure (List.intercalate [0] bs)

/-- The `_block_no` attribute of a packet.  In the source only
`Data`/`Ack` carry it (and `Error` carries `_code` instead); accessing
it on another variant raises `AttributeError`, but every call site
(`is_correct_sequence`, `_is_packet_in_windowsize`) is guarded by
`is_ack()`/`is_data()` first, so the default branch is unreachable in
the modelled flows. -/
def Packet.block_no : Packet → Int
  | .dat b _ => b
  | .ack b => b
  | _ => 0

/-- Models `BaseTFTPPacket.is_correct_sequence`. -/
def Packet.is_correct_sequence (p : Packet) (expected : Int) : Bool :=
  p.block_no = expected

/-- Models `BaseTFTPPacket.is_ack`. -/
def Packet.is_ack : Packet → Bool
  | .ack _ => true
  | _ => false

/-- Models `BaseTFTPPacket.is_data`. -/
def Packet.is_data : Packet → Bool
  | .dat _ _ => true
  | _ => false

/-- Models `BaseTFTPPacket.is_err`. -/
def Packet.is_err : Packet → Bool
  | .err _ _ => true
  | _ => false

/-- The variant-specific `encode` methods.  A request emits
`opcode+filename`, mode and serialized options joined by NUL (empty
parts dropped) plus a trailing NUL; Data emits opcode, 2-byte block
number, payload; Ack emits opcode and block number; Error emits
opcode, 2-byte code, ASCII message, trailing NUL (a non-`str` message
raises, as `bytes` has no `.encode`); OACK emits opcode, serialized
options, trailing NUL. -/
def Packet.encode : Packet → Except Unit (List Byte)
  | .req isWrite fname mode options => do
      let fnb ← ascii_encode fname
      let mdb ← ascii_encode mode
      let ob ← serialize_options options
      let parts := [(if isWrite then PType.wrq.code else PType.rrq.code) ++ fnb, mdb, ob]
      pure (List.intercalate [0] (parts.filter (fun p => p ≠ [])) ++ [0])
  | .dat b d => do
      pure (PType.dat.code ++ (← pack_short b) ++ d)
  | .ack b => do
      pure (PType.ack.code ++ (← pack_short b))
  | .err c m => do
      let mb ← match m with
        | .str s => ascii_encode s
        | _ => Except.error ()
      pure (PType.err.code ++ (← pack_short c) ++ mb ++ [0])
  | .ock options => do
      pure (PType.ock.code ++ (← serialize_options options) ++ [0])

/-- Models `BaseTFTPPacket.get_size`: `len(self.encode())`. -/
def Packet.get_size (p : Packet) : Except Unit Int := do
  pure (((← p.encode).length : Int))

/-! ## `utils.py` — request parsing -/

/-- Models `utils.parse_request`: split the body on NUL, drop empty fields,
unpack filename and mode (raising `ValueError` when fewer than two
nonempty fields remain), and build the options dict by zipping the
even-indexed and odd-indexed remaining fields — `zip` truncation drops
a dangling trailing field silently. -/
def parse_request (data : List Byte) :
    Except Unit (List Byte × List Byte × List (PyVal × PyVal)) :=
  match (pysplit 0 data).filter (fun p => p ≠ []) with
  | fname :: mode :: options =>
      .ok (fname, mode,
        mkDict (((slice2 options).zip (slice2 (options.drop 1))).map
          (fun kv => (PyVal.bytes kv.1, PyVal.bytes kv.2))))
  | _ => .error ()

/-- Models `utils.ensure_request`: keep an option only when its (bytes) key is
a key of `supported_options` — whose keys are Python `str`, so the
membership test compares `bytes` against `str` — run the validator,
and drop the option on `ValueError`; decode the filename as ASCII; the
`default_options` parameter is accepted and ignored, as in the
source. -/
def ensure_request (fname mode : List Byte) (options : List (PyVal × PyVal))
    (supported_options : List (PyVal × (PyVal → Except Unit PyVal)))
    (default_options : List (PyVal × PyVal) := []) :
    Except Unit (List Byte × List Byte × List (PyVal × PyVal)) := do
  let _ := default_options
  let acknowledged := options.foldl (fun acc kv =>
    match supported_options.find? (fun sv => sv.1 = kv.1) with
    | some sv =>
        match sv.2 kv.2 with
        | .ok v => dictSet acc kv.1 v
        | .error _ => acc
    | none => acc) []
  let fns ← ascii_decode fname
  pure (fns, mode, acknowledged)

/-- The `supported_options` mapping installed by
`BaseProtocolFactory.__init__` via `asdict(SupportedOptions())`: the
four validators keyed by Python `str` names, each converting its
argument with `int()` first as the `utils` validators do. -/
def supported_options_default : List (PyVal × (PyVal → Except Unit PyVal)) :=
  [ (.str (blksizeName), fun v => do pure (.int (← ensure_blksize (← pyint v)))),
    (.str (timeoutName), fun v => do pure (.int (← ensure_timeout (← pyint v)))),
    (.str (tsizeName), fun v => do pure (.int (← ensure_tsize (← pyint v)))),
    (.str (windowsizeName), fun v => do pure (.int (← ensure_windowsize (← pyint v)))) ]

/-- Models `TFTPPacketFactory.decode` (for a factory carrying the protocol
supported options of the protocol factories): dispatch on the 2-byte opcode, then
build the matching variant as `create` does — requests run
`parse_request`/`ensure_request` and the constructor decodes the mode
(UTF-8); Ack/Data/Error unpack the 2-byte short at offset 2 and take
the remaining bytes verbatim (the error message keeps its trailing NUL
and stays `bytes`); OACK reuses the request parser, discarding the
first two fields. -/
def TFTPPacketFactory.decode (data : List Byte) : Except Unit Packet := do
  match ← PType.decode (data.take 2) with
  | .rrq => do
      let (fname, mode, options) ← parse_request (data.drop 2)
      let (fns, mdb, ack) ← ensure_request fname mode options supported_options_default
      pure (.req false fns (← utf8_decode mdb) ack)
  | .wrq => do
      let (fname, mode, options) ← parse_request (data.drop 2)
      let (fns, mdb, ack) ← ensure_request fname mode options supported_options_default
      pure (.req true fns (← utf8_decode mdb) ack)
  | .ack => pure (.ack (unpack_short ((data.drop 2).take 2)))
  | .dat => pure (.dat (unpack_short ((data.drop 2).take 2)) (data.drop 4))
  | .err => pure (.err (unpack_short ((data.drop 2).take 2)) (.bytes (data.drop 4)))
  | .ock => do
      let (fname, mode, options) ← parse_request (data.drop 2)
      let (_, _, ack) ← ensure_request fname mode options supported_options_default
      pure (.ock ack)

/-- Models `TFTPPacketFactory.create_err_unknown_tid`:
`Error(code=5)` with the unrecognized-transfer-id message. -/
def create_err_unknown_tid : Packet :=
  .err 5 (.str (unknownTidMessage))

/-- The wire bytes of the unknown-TID error packet. -/
def err5_encoded : List Byte :=
  PType.err.code ++ [0, 5] ++ unknownTidMessage ++ [0]

/-! ## `iofile.py` -/

/-- Models `str.lstrip` with the dot-slash character set, as applied in `ensure_path`: drop every leading
character that is a dot (46) or a slash (47). -/
def lstripDotSlash : List Byte → List Byte
  | [] => []
  | c :: rest => if c = 46 ∨ c = 47 then lstripDotSlash rest else c :: rest

/-- The components of a relative `PurePosixPath` built from a string:
split on slashes, dropping empty components and bare-dot components —
`..` components are kept, `PurePath` does not resolve them. -/
def pathParts (s : List Byte) : List (List Byte) :=
  (pysplit 47 s).filter (fun p => p ≠ [] ∧ p ≠ [46])

/-- Models `PurePath.is_reserved()` on POSIX: constantly `False` (reserved
device names exist only on Windows). -/
def path_is_reserved (_abspath : List (List Byte)) : Bool := false

/-- Models `iofile.ensure_path`: strip leading `./` characters, join under the
current working directory (given as its component list), check
containment with the purely lexical `relative_to` (which cannot fail
here, since the joined path literally extends `cwd`), reject reserved
names, and return the joined — unresolved — component list. -/
def ensure_path (cwd : List (List Byte)) (path0 : List Byte) :
    Except Unit (List (List Byte)) :=
  let path := lstripDotSlash path0
  let abspath := cwd ++ pathParts path
  if cwd.isPrefixOf abspath then
    if path_is_reserved abspath then .error () else .ok abspath
  else .error ()

/-- Filesystem resolution of a component list: a `..` component removes
the preceding component (at the root it is a no-op), every other
component descends.  This is what the operating system does when the
returned path is actually opened; `ensure_path` itself never performs
it. -/
def resolveParts (parts : List (List Byte)) : List (List Byte) :=
  parts.foldl (fun acc p => if p = [46, 46] then acc.dropLast else acc ++ [p]) []

/-- State of a `FileReader`: the not-yet-read suffix of the file, the
chunk size (`blksize`) it was created with, and the `_finished` flag
(which also records that `__del__` closed the handle). -/
structure FileReaderSt where
  remaining : List Byte
  chunk_size : Nat
  finished : Bool
deriving DecidableEq, Repr

/-- Models `FileReader.read`: a size of 0 falls back to the chunk size
(Python `size or self._chunk_size`); reading a finished handle raises
`IOError`; an empty read, or a short read with positive size, closes
the handle and marks it finished. -/
def FileReader.read (st : FileReaderSt) (size0 : Nat) :
    Except Unit (List Byte × FileReaderSt) :=
  let size := if size0 = 0 then st.chunk_size else size0
  if st.finished then .error ()
  else
    let data := st.remaining.take size
    let fin := data.isEmpty || (decide (0 < size) && decide (data.length < size))
    .ok (data, { st with remaining := st.remaining.drop size, finished := fin })

/-- State of a `FileWriter`: bytes written so far, the chunk size
(`blksize`) it was created with, and whether the underlying file was
closed. -/
structure FileWriterSt where
  contents : List Byte
  chunk_size : Nat
  closed : Bool
deriving DecidableEq, Repr

/-- Models `FileWriter.write`: append the data (writing to a closed file
raises `ValueError`), then close the file when the data is empty or
shorter than the chunk size; returns the byte count written. -/
def FileWriter.write (st : FileWriterSt) (data : List Byte) :
    Except Unit (Int × FileWriterSt) :=
  if st.closed then .error ()
  else
    let st1 := { st with contents := st.contents ++ data }
    if data.isEmpty || decide (data.length < st.chunk_size) then
      .ok ((data.length : Int), { st1 with closed := true })
    else .ok ((data.length : Int), st1)

/-! ## `protocols.py`

The session objects are embedded as explicit state records.  Outbound
`sendto` calls are recorded in order in a `sent` list (payload bytes
and destination address); the retransmit timer handles scheduled by
`_send_packet` and cancelled by `reset_retransmitters` are not
represented (no claim mentions an actual timer firing), while calls to
`_reset_connection_timeout` are counted in `conn_resets`.  A handler
returns `Except Unit state`; `.error` models a Python exception
escaping the `datagram_received` callback, and every flow a theorem
below touches either avoids it or raises before any state mutation. -/

/-- Models `BaseProtocolFactory.is_correct_tid`: compare only the **port** of
the sender against the remote address of the session; on mismatch send the
encoded unknown-TID error packet to the foreign address.  Returns the
verdict and the `sendto` calls performed. -/
def is_correct_tid (remote addr : Addr) : Bool × List (List Byte × Addr) :=
  if remote.2 = addr.2 then (true, [])
  else (false, [(err5_encoded, addr)])

/-- Session state of an `RRQProtocolFactory` (read-serving session). -/
structure RRQState where
  remote : Addr
  counter : Int
  packets : List (Option Packet)
  packet_slice : Option (List (Option Packet))
  file : FileReaderSt
  transport_closed : Bool
  sent : List (List Byte × Addr)
  conn_resets : Nat
deriving DecidableEq, Repr

/-- Models `RRQProtocolFactory._next_datagram`: read the next chunk (default
size, i.e. the chunk size) and wrap it in a Data packet numbered with
the current counter. -/
def RRQ.next_datagram (counter : Int) (file : FileReaderSt) :
    Except Unit (Packet × FileReaderSt) := do
  let (d, f) ← FileReader.read file 0
  pure (.dat counter d, f)

/-- Models `RRQProtocolFactory._datagram_received_default` (the
`windowsize = 1` path).  Note that on a wrong TID `is_correct_tid` is
evaluated — and therefore sends the error packet — twice, once per
`if` condition. -/
def RRQ.datagram_received_default (st : RRQState) (data : List Byte) (addr : Addr) :
    Except Unit RRQState :=
  match TFTPPacketFactory.decode data with
  | .error _ => .ok st
  | .ok packet =>
    let r1 := is_correct_tid st.remote addr
    let st := { st with sent := st.sent ++ r1.2 }
    if r1.1 ∧ packet.is_err then .ok st
    else
      let r2 := is_correct_tid st.remote addr
      let st := { st with sent := st.sent ++ r2.2 }
      if r2.1 ∧ packet.is_ack ∧ packet.is_correct_sequence st.counter then
        let st := { st with conn_resets := st.conn_resets + 1 }
        if st.file.finished then .ok { st with transport_closed := true }
        else do
          let counter := (st.counter + 1) % 65536
          let (p, f) ← RRQ.next_datagram counter st.file
          let b ← p.encode
          .ok { st with counter := counter, file := f,
                        sent := st.sent ++ [(b, st.remote)] }
      else .ok st

/-- Python `l[-i:]`: the last `i` elements, the whole list when
`i = 0` (then `-0` is `0`) or when `i` exceeds the length. -/
def pyslice_last (l : List α) (i : Nat) : List α :=
  if i = 0 then l else l.drop (l.length - i)

/-- Models `RRQProtocolFactory._is_packet_in_windowsize`. -/
def RRQ.is_packet_in_windowsize (block counter windowsize : Int) : Bool :=
  decide (block > counter - windowsize) && decide (block ≤ counter)

/-- The `for i in range(next_packet_id)` loop of
`_datagram_received_windowsize`: while the file handler is not
finished, pop the head of `_packets` (an empty pop raises
`IndexError`), advance the counter mod 65536, read a fresh chunk into
a new Data packet numbered with the advanced counter and append it;
when the handler is finished, assign the slice `_packets[-i:]` to the
`_packet` attribute and break. -/
def RRQ.refill_loop (st : RRQState) (i : Nat) : Nat → Except Unit RRQState
  | 0 => .ok st
  | n + 1 =>
    if st.file.finished then
      .ok { st with packet_slice := some (pyslice_last st.packets i) }
    else
      match st.packets with
      | [] => .error ()
      | _ :: ptail => do
        let counter := (st.counter + 1) % 65536
        let (d, f) ← FileReader.read st.file 0
        RRQ.refill_loop
          { st with packets := ptail ++ [some (Packet.dat counter d)],
                    counter := counter, file := f } (i + 1) n

/-- The `for packet in self._packets: self._send_packet(...)` loop:
encode and send every queued packet to the remote address (a `None`
placeholder raises `AttributeError`). -/
def RRQ.send_all (st : RRQState) : Except Unit RRQState :=
  st.packets.foldlM (fun s op =>
    match op with
    | none => Except.error ()
    | some p => do
        let b ← p.encode
        pure { s with sent := s.sent ++ [(b, s.remote)] }) st

/-- Models `RRQProtocolFactory._datagram_received_windowsize`. -/
def RRQ.datagram_received_windowsize (st : RRQState) (data : List Byte) (addr : Addr)
    (windowsize : Int) : Except Unit RRQState :=
  match TFTPPacketFactory.decode data with
  | .error _ => .ok st
  | .ok packet =>
    let r1 := is_correct_tid st.remote addr
    let st := { st with sent := st.sent ++ r1.2 }
    if r1.1 ∧ packet.is_err then .ok st
    else
      let r2 := is_correct_tid st.remote addr
      let st := { st with sent := st.sent ++ r2.2 }
      if r2.1 ∧ packet.is_ack ∧
          RRQ.is_packet_in_windowsize packet.block_no st.counter windowsize then
        let st := { st with conn_resets := st.conn_resets + 1 }
        if packet.is_correct_sequence st.counter then
          if st.file.finished then .ok { st with transport_closed := true }
          else do
            RRQ.send_all (← RRQ.refill_loop st 0 windowsize.toNat)
        else
          let counter_diff := st.counter - packet.block_no
          let next_packet_id := windowsize - counter_diff
          let st := { st with counter := st.counter + 1 - next_packet_id }
          do RRQ.send_all (← RRQ.refill_loop st 0 next_packet_id.toNat)
      else .ok st

/-- The `_r_options` attribute of a session after
`RRQProtocolFactory._open_file_handler` ran: normally the accepted
options dict, but the `tsize` branch overwrites the attribute with the
bare integer file size. -/
inductive ROptions where
  | dict (d : List (PyVal × PyVal))
  | int (n : Int)
deriving DecidableEq, Repr

/-- Models `RRQProtocolFactory._open_file_handler`: set the counter to 1, open
the file handler (abstracted here to the size its `file_size()` method
reports), replace the **whole** `_r_options` attribute by the integer
file size when the accepted options contain the `str` key `tsize`, and
populate the `_packets` placeholder list when `windowsize > 1`.
Returns the new counter, the new `_r_options` and the `_packets`
list. -/
def RRQ.open_file_handler (r_options : List (PyVal × PyVal)) (file_size : Int)
    (windowsize : Int) : Int × ROptions × Option (List (Option Packet)) :=
  (1,
   if dictHasKey r_options (.str (tsizeName)) then ROptions.int file_size
   else ROptions.dict r_options,
   if windowsize > 1 then some (List.replicate windowsize.toNat none) else none)

/-- The `_data` attribute of a packet; only Data packets carry it, and
the single call site (`WRQProtocolFactory.datagram_received`) is
guarded by `is_data()`. -/
def Packet.data_field : Packet → List Byte
  | .dat _ d => d
  | _ => []

/-- Session state of a `WRQProtocolFactory` (write-serving session);
`blksize` is the `_default_options.blksize` of the session (512 in every
session the source constructs). -/
structure WRQState where
  remote : Addr
  counter : Int
  blksize : Int
  file : FileWriterSt
  transport_closed : Bool
  sent : List (List Byte × Addr)
  conn_resets : Nat
deriving DecidableEq, Repr

/-- Models `WRQProtocolFactory.datagram_received`: on a correctly sequenced
Data packet from the right TID, reset the idle timeout, advance the
counter, send `Ack(counter)`, write the payload to the file, and close
the transport when the **encoded packet size** (`get_size`, i.e.
payload + 4 header bytes) is below `blksize`. -/
def WRQ.datagram_received (st : WRQState) (data : List Byte) (addr : Addr) :
    Except Unit WRQState :=
  match TFTPPacketFactory.decode data with
  | .error _ => .ok st
  | .ok packet =>
    let r1 := is_correct_tid st.remote addr
    let st := { st with sent := st.sent ++ r1.2 }
    if r1.1 ∧ packet.is_data ∧ packet.is_correct_sequence ((st.counter + 1) % 65536) then do
      let st := { st with conn_resets := st.conn_resets + 1,
                          counter := (st.counter + 1) % 65536 }
      let b ← (Packet.ack st.counter).encode
      let st := { st with sent := st.sent ++ [(b, st.remote)] }
      let (_, f) ← FileWriter.write st.file packet.data_field
      let st := { st with file := f }
      let sz ← packet.get_size
      if sz < st.blksize then .ok { st with transport_closed := true }
      else .ok st
    else .ok st

/-- Decidable equality for `Except`, needed to settle concrete packet
computations by `decide`. -/
instance instDecEqExcept {e a : Type} [DecidableEq e] [DecidableEq a] :
    DecidableEq (Except e a)
  | .error x, .error y =>
    if h : x = y then .isTrue (by rw [h])
    else .isFalse (fun hh => h (by cases hh; rfl))
  | .error _, .ok _ => .isFalse (fun hh => Except.noConfusion hh)
  | .ok _, .error _ => .isFalse (fun hh => Except.noConfusion hh)
  | .ok x, .ok y =>
    if h : x = y then .isTrue (by rw [h])
    else .isFalse (fun hh => h (by cases hh; rfl))

/-- The C4 scenario: a windowsize-4 read session that has sent Data
blocks 1–4 (512-byte payloads), with two further 512-byte chunks still
unread; the peer TID is port 7. -/
def c4_initial : RRQState :=
  { remote := (0, 7), counter := 4,
    packets := [some (.dat 1 (List.replicate 512 1)), some (.dat 2 (List.replicate 512 2)),
                some (.dat 3 (List.replicate 512 3)), some (.dat 4 (List.replicate 512 4))],
    packet_slice := none,
    file := { remaining := List.replicate 512 5 ++ List.replicate 512 6,
              chunk_size := 512, finished := false },
    transport_closed := false, sent := [], conn_resets := 0 }

/-- A small read session used for the C8 scenario; its peer TID is
port 50. -/
def c8_state : RRQState :=
  { remote := (0, 50), counter := 1, packets := [], packet_slice := none,
    file := { remaining := [1, 2, 3], chunk_size := 2, finished := false },
    transport_closed := false, sent := [], conn_resets := 0 }

/-- A fresh write session with the default `blksize` 512; the peer
TID is port 9. -/
def c5_state : WRQState :=
  { remote := (0, 9), counter := 0, blksize := 512,
    file := { contents := [], chunk_size := 512, closed := false },
    transport_closed := false, sent := [], conn_resets := 0 }

end Aiotftp

namespace Aiotftp

/-- Decoding a CR LF pair emits the platform newline. -/
theorem from_netascii_crlf (l : List Byte) :
    from_netascii (13 :: 10 :: l) = 10 :: from_netascii l := by
  simp [from_netascii]

/-- Decoding a CR NUL pair emits a bare CR. -/
theorem from_netascii_crnul (l : List Byte) :
    from_netascii (13 :: 0 :: l) = 13 :: from_netascii l := by
  simp [from_netascii]

/-- A leading byte other than CR passes through the decoder. -/
theorem from_netascii_cons_of_ne (b : Byte) (l : List Byte) (hb : b ≠ 13) :
    from_netascii (b :: l) = b :: from_netascii l := by
  cases l with
  | nil => simp [from_netascii]
  | cons c rest => simp [from_netascii, hb]

/-- The decoder inverts the encoder on whole streams. -/
theorem from_to_netascii (S : List Byte) :
    from_netascii (to_netascii S) = S := by
  induction S with
  | nil => rfl
  | cons b rest ih =>
    by_cases h10 : b = 10
    · subst h10; simp [to_netascii, from_netascii_crlf, ih]
    · by_cases h13 : b = 13
      · subst h13; simp [to_netascii, h10, from_netascii_crnul, ih]
      · simp [to_netascii, h10, h13, from_netascii_cons_of_ne _ _ h13, ih]

/-- Encoder output never ends in a bare CR (defaulted last element). -/
theorem to_netascii_getLastD (S : List Byte) :
    ∀ d : Byte, d ≠ 13 → (to_netascii S).getLastD d ≠ 13 := by
  induction S with
  | nil => intro d hd; simpa [to_netascii] using hd
  | cons b rest ih =>
    intro d hd
    by_cases h10 : b = 10
    · subst h10
      show (13 :: 10 :: to_netascii rest).getLastD d ≠ 13
      rw [List.getLastD_cons, List.getLastD_cons]
      exact ih 10 (by decide)
    · by_cases h13 : b = 13
      · subst h13
        have he : to_netascii (13 :: rest) = 13 :: 0 :: to_netascii rest := by
          simp [to_netascii]
        rw [he, List.getLastD_cons, List.getLastD_cons]
        exact ih 0 (by decide)
      · have he : to_netascii (b :: rest) = b :: to_netascii rest := by
          simp [to_netascii, h10, h13]
        rw [he, List.getLastD_cons]
        exact ih b h13

/-- Encoder output never ends in a bare CR. -/
theorem to_netascii_getLast?_ne (S : List Byte) :
    (to_netascii S).getLast? ≠ some 13 := by
  intro h
  have hh := to_netascii_getLastD S 0 (by decide)
  rw [List.getLastD_eq_getLast?, h] at hh
  simp at hh

/-- The decoder distributes over concatenation when no CR LF / CR NUL
pair straddles the boundary: either the left part does not end in CR,
or the right part starts with CR (a CR CR pair is never replaced). -/
theorem from_netascii_append : ∀ (A B : List Byte),
    A.getLast? ≠ some 13 ∨ B.head? = some 13 →
    from_netascii (A ++ B) = from_netascii A ++ from_netascii B := by
  intro A
  induction A using from_netascii.induct with
  | case1 => intro B _; simp [from_netascii]
  | case2 b =>
    intro B h
    rcases h with h | h
    · have hb : b ≠ 13 := by simpa using h
      simp [from_netascii_cons_of_ne _ _ hb, from_netascii]
    · obtain ⟨Bt, rfl⟩ : ∃ Bt, B = 13 :: Bt := by
        cases B with
        | nil => simp at h
        | cons x xs =>
          simp at h
          exact ⟨xs, by rw [h]⟩
      by_cases hb : b = 13
      · subst hb; simp [from_netascii]
      · simp [from_netascii_cons_of_ne _ _ hb, from_netascii]
  | case3 b c rest h1 ih =>
    intro B h
    obtain ⟨rfl, rfl⟩ := h1
    cases rest with
    | nil => simp [from_netascii_crlf, from_netascii]
    | cons x xs =>
      have hc : (x :: xs).getLast? ≠ some 13 ∨ B.head? = some 13 := by
        rcases h with h | h
        · left; simpa [List.getLast?_cons_cons] using h
        · right; exact h
      have hrec := ih B hc
      show from_netascii ((13 :: 10 :: x :: xs) ++ B) = _
      simp only [List.cons_append, from_netascii_crlf]
      rw [List.cons_append] at hrec
      rw [hrec]
  | case4 b c rest h1 h2 ih =>
    intro B h
    have hb : b = 13 ∧ c = 0 := h2
    obtain ⟨rfl, rfl⟩ := hb
    cases rest with
    | nil => simp [from_netascii_crnul, from_netascii]
    | cons x xs =>
      have hc : (x :: xs).getLast? ≠ some 13 ∨ B.head? = some 13 := by
        rcases h with h | h
        · left; simpa [List.getLast?_cons_cons] using h
        · right; exact h
      have hrec := ih B hc
      show from_netascii ((13 :: 0 :: x :: xs) ++ B) = _
      simp only [List.cons_append, from_netascii_crnul]
      rw [List.cons_append] at hrec
      rw [hrec]
  | case5 b c rest h1 h2 ih =>
    intro B h
    have hc : (c :: rest).getLast? ≠ some 13 ∨ B.head? = some 13 := by
      rcases h with h | h
      · left; simpa [List.getLast?_cons_cons] using h
      · right; exact h
    have hrec := ih B hc
    show from_netascii (b :: c :: (rest ++ B)) = from_netascii (b :: c :: rest) ++ from_netascii B
    rw [show (b :: c :: (rest ++ B)) = b :: ((c :: rest) ++ B) by simp]
    simp only [from_netascii, h1, h2, if_false, List.cons_append] at hrec ⊢
    simp [hrec]

end Aiotftp

namespace Aiotftp

/-- Closed form of the chunked writer: starting from an empty or
CR-buffered state, after writing any chunk sequence the buffer holds a
CR exactly when the bytes seen so far end in CR, and the file holds
the decoding of everything seen except a buffered trailing CR. -/
theorem writeChunks_closed_form : ∀ (cs : List (List Byte)) (buf F : List Byte),
    buf = [] ∨ buf = [13] →
    writeChunks cs ⟨buf, F⟩ =
      if (buf ++ cs.flatten).getLast? = some 13 then
        ⟨[13], F ++ from_netascii (buf ++ cs.flatten).dropLast⟩
      else
        ⟨[], F ++ from_netascii (buf ++ cs.flatten)⟩ := by
  intro cs
  induction cs with
  | nil =>
    intro buf F hbuf
    rcases hbuf with rfl | rfl
    · simp [writeChunks, from_netascii]
    · simp [writeChunks, from_netascii]
  | cons c cs ih =>
    intro buf F hbuf
    show writeChunks cs (NETASCII.write ⟨buf, F⟩ c) = _
    rw [show (buf ++ (c :: cs).flatten) = (buf ++ c) ++ cs.flatten by
      simp [List.flatten_cons]]
    by_cases hD : (buf ++ c).getLast? = some 13
    · have hw : NETASCII.write ⟨buf, F⟩ c =
          ⟨[13], F ++ from_netascii (buf ++ c).dropLast⟩ := by
        simp [NETASCII.write, hD]
      rw [hw, ih [13] _ (Or.inr rfl)]
      have hsplit : (buf ++ c).dropLast ++ [13] = buf ++ c :=
        List.dropLast_append_getLast? 13 hD
      by_cases hE : cs.flatten = []
      · simp only [hE, List.append_nil, hD, if_pos]
        simp [from_netascii]
      · have h13E : ([13] ++ cs.flatten).getLast? = cs.flatten.getLast? :=
          List.getLast?_append_of_ne_nil [13] hE
        have hTE : ((buf ++ c) ++ cs.flatten).getLast? = cs.flatten.getLast? :=
          List.getLast?_append_of_ne_nil (buf ++ c) hE
        rw [h13E, hTE]
        by_cases hEnd : cs.flatten.getLast? = some 13
        · rw [if_pos hEnd, if_pos hEnd]
          have hd1 : ([13] ++ cs.flatten).dropLast = [13] ++ cs.flatten.dropLast :=
            List.dropLast_append_of_ne_nil [13] hE
          have hd2 : ((buf ++ c) ++ cs.flatten).dropLast =
              (buf ++ c) ++ cs.flatten.dropLast :=
            List.dropLast_append_of_ne_nil (buf ++ c) hE
          have key : from_netascii ((buf ++ c) ++ cs.flatten.dropLast) =
              from_netascii ((buf ++ c).dropLast)
                ++ from_netascii ([13] ++ cs.flatten.dropLast) := by
            conv_lhs => rw [← hsplit]
            rw [List.append_assoc]
            exact from_netascii_append _ _ (Or.inr (by simp))
          rw [hd1, hd2, key]
          simp [List.append_assoc]
        · rw [if_neg hEnd, if_neg hEnd]
          have key : from_netascii ((buf ++ c) ++ cs.flatten) =
              from_netascii ((buf ++ c).dropLast)
                ++ from_netascii ([13] ++ cs.flatten) := by
            conv_lhs => rw [← hsplit]
            rw [List.append_assoc]
            exact from_netascii_append _ _ (Or.inr (by simp))
          rw [key]
          simp [List.append_assoc]
    · have hw : NETASCII.write ⟨buf, F⟩ c = ⟨[], F ++ from_netascii (buf ++ c)⟩ := by
        simp only [NETASCII.write]
        rw [if_neg hD]
      rw [hw, ih [] _ (Or.inl rfl)]
      simp only [List.nil_append]
      by_cases hE : cs.flatten = []
      · simp only [hE, List.append_nil]
        rw [if_neg (by simp), if_neg hD]
        simp [from_netascii]
      · have hTE : ((buf ++ c) ++ cs.flatten).getLast? = cs.flatten.getLast? :=
          List.getLast?_append_of_ne_nil (buf ++ c) hE
        rw [hTE]
        by_cases hEnd : cs.flatten.getLast? = some 13
        · rw [if_pos hEnd, if_pos hEnd]
          have hd2 : ((buf ++ c) ++ cs.flatten).dropLast =
              (buf ++ c) ++ cs.flatten.dropLast :=
            List.dropLast_append_of_ne_nil (buf ++ c) hE
          have key : from_netascii ((buf ++ c) ++ cs.flatten.dropLast) =
              from_netascii (buf ++ c) ++ from_netascii (cs.flatten.dropLast) :=
            from_netascii_append _ _ (Or.inl hD)
          rw [hd2, key]
          simp [List.append_assoc]
        · rw [if_neg hEnd, if_neg hEnd]
          have key : from_netascii ((buf ++ c) ++ cs.flatten) =
              from_netascii (buf ++ c) ++ from_netascii cs.flatten :=
            from_netascii_append _ _ (Or.inl hD)
          rw [key]
          simp [List.append_assoc]

end Aiotftp

namespace Aiotftp

/-- C3: for every byte sequence S containing no NUL byte, applying
`from_netascii` to `to_netascii S` returns S; and feeding
`to_netascii S` through the NETASCII stream wrapper in arbitrary chunk
boundaries reassembles exactly S in the underlying file, with no byte
left buffered. -/
theorem c3_netascii_roundtrip (S : List Byte) (_hS : 0 ∉ S) (cs : List (List Byte))
    (hcs : cs.flatten = to_netascii S) :
    from_netascii (to_netascii S) = S ∧
    (writeChunks cs ⟨[], []⟩).file = S ∧ (writeChunks cs ⟨[], []⟩).buffer = [] := by
  have hchunks := writeChunks_closed_form cs [] [] (Or.inl rfl)
  rw [List.nil_append, hcs] at hchunks
  rw [if_neg (to_netascii_getLast?_ne S)] at hchunks
  refine ⟨from_to_netascii S, ?_, ?_⟩
  · rw [hchunks]
    simp [from_to_netascii S]
  · rw [hchunks]

/-- Witness for C3 at S = [65, 13, 10] split as [[65,13],[0,13],[10]]. -/
theorem c3_netascii_roundtrip_witness :
    (0 : Byte) ∉ ([65, 13, 10] : List Byte) ∧
    ([[65, 13], [0, 13], [10]] : List (List Byte)).flatten = to_netascii [65, 13, 10] ∧
    (from_netascii (to_netascii [65, 13, 10]) = [65, 13, 10] ∧
     (writeChunks [[65, 13], [0, 13], [10]] ⟨[], []⟩).file = [65, 13, 10] ∧
     (writeChunks [[65, 13], [0, 13], [10]] ⟨[], []⟩).buffer = []) :=
  ⟨by decide, by decide,
   c3_netascii_roundtrip [65, 13, 10] (by decide) [[65, 13], [0, 13], [10]] (by decide)⟩

/-- Splitting a separator-free prefix followed by a separator peels off
the prefix. -/
theorem pysplit_append_sep (sep : Byte) (A R : List Byte) (hA : sep ∉ A) :
    pysplit sep (A ++ sep :: R) = A :: pysplit sep R := by
  induction A with
  | nil => simp [pysplit]
  | cons b bs ih =>
    simp only [List.mem_cons, not_or] at hA
    have hb : b ≠ sep := fun hh => hA.1 hh.symm
    simp [pysplit, hb, ih hA.2]

/-- Splitting a separator-free list returns it whole. -/
theorem pysplit_no_sep (sep : Byte) (A : List Byte) (hA : sep ∉ A) :
    pysplit sep A = [A] := by
  induction A with
  | nil => rfl
  | cons b bs ih =>
    simp only [List.mem_cons, not_or] at hA
    have hb : b ≠ sep := fun hh => hA.1 hh.symm
    simp [pysplit, hb, ih hA.2]

/-- Two-part intercalation. -/
theorem intercalate_two (s a b : List Byte) :
    List.intercalate s [a, b] = a ++ s ++ b := by
  simp [List.intercalate, List.intersperse]

end Aiotftp

namespace Aiotftp

/-- Ack packets survive the encode/decode round trip. -/
theorem ack_roundtrip (b : Int) (h0 : 0 ≤ b) (h1 : b < 65536) :
    (Packet.ack b).encode >>= TFTPPacketFactory.decode = .ok (.ack b) := by
  have hp : pack_short b = .ok [(b / 256).toNat, (b % 256).toNat] := by
    simp [pack_short, h0, h1]
  have harith :
      (((0 : Int) * 256 + ((b / 256).toNat : Int)) * 256 + ((b % 256).toNat : Int)) = b := by
    omega
  simp only [Packet.encode, hp, PType.code, bind, Except.bind, pure, Except.pure]
  show Except.ok
    (Packet.ack (((0 : Int) * 256 + ((b / 256).toNat : Int)) * 256 + ((b % 256).toNat : Int)))
      = (Except.ok (Packet.ack b) : Except Unit Packet)
  rw [harith]

/-- Data packets survive the encode/decode round trip. -/
theorem dat_roundtrip (b : Int) (d : List Byte) (h0 : 0 ≤ b) (h1 : b < 65536) :
    (Packet.dat b d).encode >>= TFTPPacketFactory.decode = .ok (.dat b d) := by
  have hp : pack_short b = .ok [(b / 256).toNat, (b % 256).toNat] := by
    simp [pack_short, h0, h1]
  have harith :
      (((0 : Int) * 256 + ((b / 256).toNat : Int)) * 256 + ((b % 256).toNat : Int)) = b := by
    omega
  simp only [Packet.encode, hp, PType.code, bind, Except.bind, pure, Except.pure]
  show Except.ok
    (Packet.dat (((0 : Int) * 256 + ((b / 256).toNat : Int)) * 256 + ((b % 256).toNat : Int))
      (([(b / 256).toNat, (b % 256).toNat] ++ d).drop 2))
      = (Except.ok (Packet.dat b d) : Except Unit Packet)
  rw [harith]
  rfl

end Aiotftp

namespace Aiotftp

/-- Request packets with an empty options dict survive the round trip
(nonempty NUL-free ASCII filename and mode). -/
theorem req_nooptions_roundtrip (w : Bool) (fn md : List Byte)
    (hfn : fn ≠ []) (hmd : md ≠ [])
    (hfa : ∀ c ∈ fn, c < 128 ∧ c ≠ 0) (hma : ∀ c ∈ md, c < 128 ∧ c ≠ 0) :
    (Packet.req w fn md []).encode >>= TFTPPacketFactory.decode
      = .ok (.req w fn md []) := by
  have hf128 : fn.all (fun c => c < 128) = true := by
    simp only [List.all_eq_true, decide_eq_true_eq]
    exact fun c hc => (hfa c hc).1
  have hm128 : md.all (fun c => c < 128) = true := by
    simp only [List.all_eq_true, decide_eq_true_eq]
    exact fun c hc => (hma c hc).1
  have hf0 : (0 : Byte) ∉ fn := fun h => (hfa 0 h).2 rfl
  have hm0 : (0 : Byte) ∉ md := fun h => (hma 0 h).2 rfl
  have hae : ascii_encode fn = .ok fn := by simp [ascii_encode, hf128]
  have hme : ascii_encode md = .ok md := by simp [ascii_encode, hm128]
  have hser : serialize_options [] = Except.ok [] := rfl
  have hparse : parse_request (fn ++ 0 :: (md ++ 0 :: [])) = .ok (fn, md, []) := by
    rw [parse_request, pysplit_append_sep 0 fn _ hf0, pysplit_append_sep 0 md _ hm0]
    simp [hfn, hmd, pysplit, mkDict, slice2]
  have hens : ensure_request fn md [] supported_options_default = .ok (fn, md, []) := by
    simp [ensure_request, ascii_decode, hf128, bind, Except.bind, pure, Except.pure]
  have hut : utf8_decode md = .ok md := by simp [utf8_decode, hm128]
  cases w
  · simp only [Packet.encode, Bool.false_eq_true, if_false, PType.code, hae, hme, hser,
      bind, Except.bind, pure, Except.pure]
    have hshape :
        List.intercalate [0]
            (([([0, 1] : List Byte) ++ fn, md, []]).filter (fun p => p ≠ [])) ++ [0]
          = 0 :: 1 :: (fn ++ 0 :: (md ++ 0 :: [])) := by
      simp [List.filter_cons, hmd, intercalate_two]
    rw [hshape]
    have hpt : PType.decode ((0 :: 1 :: (fn ++ 0 :: (md ++ 0 :: []))).take 2)
        = .ok PType.rrq := rfl
    have hdrop : (0 :: 1 :: (fn ++ 0 :: (md ++ 0 :: []))).drop 2
        = fn ++ 0 :: (md ++ 0 :: []) := rfl
    simp only [TFTPPacketFactory.decode, hpt, hdrop, hparse, hens, hut,
      bind, Except.bind, pure, Except.pure]
  · simp only [Packet.encode, if_true, PType.code, hae, hme, hser,
      bind, Except.bind, pure, Except.pure]
    have hshape :
        List.intercalate [0]
            (([([0, 2] : List Byte) ++ fn, md, []]).filter (fun p => p ≠ [])) ++ [0]
          = 0 :: 2 :: (fn ++ 0 :: (md ++ 0 :: [])) := by
      simp [List.filter_cons, hmd, intercalate_two]
    rw [hshape]
    have hpt : PType.decode ((0 :: 2 :: (fn ++ 0 :: (md ++ 0 :: []))).take 2)
        = .ok PType.wrq := rfl
    have hdrop : (0 :: 2 :: (fn ++ 0 :: (md ++ 0 :: []))).drop 2
        = fn ++ 0 :: (md ++ 0 :: []) := rfl
    simp only [TFTPPacketFactory.decode, hpt, hdrop, hparse, hens, hut,
      bind, Except.bind, pure, Except.pure]

end Aiotftp

namespace Aiotftp

/-- Error packets do not round-trip to themselves: the decoder keeps
the trailing NUL and returns the message as raw bytes. -/
theorem err_roundtrip_shape (c : Int) (m : List Byte)
    (h0 : 0 ≤ c) (h1 : c < 65536) (hm : ∀ x ∈ m, x < 128) :
    (Packet.err c (.str m)).encode >>= TFTPPacketFactory.decode
      = .ok (.err c (.bytes (m ++ [0]))) := by
  have hm128 : m.all (fun x => x < 128) = true := by
    simp only [List.all_eq_true, decide_eq_true_eq]
    exact hm
  have hme : ascii_encode m = .ok m := by simp [ascii_encode, hm128]
  have hp : pack_short c = .ok [(c / 256).toNat, (c % 256).toNat] := by
    simp [pack_short, h0, h1]
  have harith :
      (((0 : Int) * 256 + ((c / 256).toNat : Int)) * 256 + ((c % 256).toNat : Int)) = c := by
    omega
  simp only [Packet.encode, hp, hme, PType.code, bind, Except.bind, pure, Except.pure]
  have hshape : ([0, 5] : List Byte) ++ [(c / 256).toNat, (c % 256).toNat] ++ m ++ [0]
      = 0 :: 5 :: (c / 256).toNat :: (c % 256).toNat :: (m ++ [0]) := by simp
  rw [hshape]
  show Except.ok
    (Packet.err (((0 : Int) * 256 + ((c / 256).toNat : Int)) * 256 + ((c % 256).toNat : Int))
      (.bytes (m ++ [0])))
      = (Except.ok (Packet.err c (.bytes (m ++ [0]))) : Except Unit Packet)
  rw [harith]

/-- Three-part intercalation. -/
theorem intercalate_three (s a b c : List Byte) :
    List.intercalate s [a, b, c] = a ++ s ++ b ++ s ++ c := by
  simp [List.intercalate, List.intersperse]

/-- A request carrying the supported option `blksize = 512` decodes
back with an **empty** accepted-options dict: `parse_request` produces
`bytes` keys, while the supported-options mapping is keyed by `str`,
so the membership test in `ensure_request` never succeeds. -/
theorem req_blksize_option_decodes_empty (w : Bool) (fn md : List Byte)
    (hfn : fn ≠ []) (hmd : md ≠ [])
    (hfa : ∀ c ∈ fn, c < 128 ∧ c ≠ 0) (hma : ∀ c ∈ md, c < 128 ∧ c ≠ 0) :
    (Packet.req w fn md [(.str (blksizeName), .int 512)]).encode
        >>= TFTPPacketFactory.decode
      = .ok (.req w fn md []) := by
  have hf128 : fn.all (fun c => c < 128) = true := by
    simp only [List.all_eq_true, decide_eq_true_eq]
    exact fun c hc => (hfa c hc).1
  have hm128 : md.all (fun c => c < 128) = true := by
    simp only [List.all_eq_true, decide_eq_true_eq]
    exact fun c hc => (hma c hc).1
  have hf0 : (0 : Byte) ∉ fn := fun h => (hfa 0 h).2 rfl
  have hm0 : (0 : Byte) ∉ md := fun h => (hma 0 h).2 rfl
  have hae : ascii_encode fn = .ok fn := by simp [ascii_encode, hf128]
  have hme : ascii_encode md = .ok md := by simp [ascii_encode, hm128]
  have hser : serialize_options [(.str (blksizeName), .int 512)]
      = Except.ok (blksizeName ++ 0 :: [53, 49, 50]) := rfl
  have hparse : parse_request
        (fn ++ 0 :: (md ++ 0 :: (blksizeName ++ 0 :: ([53, 49, 50] ++ 0 :: []))))
      = .ok (fn, md,
          [(PyVal.bytes (blksizeName), PyVal.bytes [53, 49, 50])]) := by
    rw [parse_request, pysplit_append_sep 0 fn _ hf0, pysplit_append_sep 0 md _ hm0,
      pysplit_append_sep 0 (blksizeName) _ (by decide),
      pysplit_append_sep 0 [53, 49, 50] _ (by decide)]
    simp [hfn, hmd, pysplit, mkDict, slice2, dictSet, blksizeName]
  have hens : ensure_request fn md
        [(PyVal.bytes (blksizeName), PyVal.bytes [53, 49, 50])]
        supported_options_default
      = .ok (fn, md, []) := by
    simp [ensure_request, ascii_decode, hf128, supported_options_default,
      bind, Except.bind, pure, Except.pure, List.find?]
  have hut : utf8_decode md = .ok md := by simp [utf8_decode, hm128]
  cases w
  · simp only [Packet.encode, Bool.false_eq_true, if_false, PType.code, hae, hme, hser,
      bind, Except.bind, pure, Except.pure]
    have hshape :
        List.intercalate [0]
            (([([0, 1] : List Byte) ++ fn, md,
               blksizeName ++ 0 :: [53, 49, 50]]).filter (fun p => p ≠ [])) ++ [0]
          = 0 :: 1 ::
              (fn ++ 0 :: (md ++ 0 :: (blksizeName
                ++ 0 :: ([53, 49, 50] ++ 0 :: [])))) := by
      simp [List.filter_cons, hmd, intercalate_three, blksizeName]
    rw [hshape]
    have hpt : PType.decode ((0 :: 1 :: (fn ++ 0 :: (md ++ 0 :: (blksizeName
        ++ 0 :: ([53, 49, 50] ++ 0 :: []))))).take 2) = .ok PType.rrq := rfl
    have hdrop : (0 :: 1 :: (fn ++ 0 :: (md ++ 0 :: (blksizeName
        ++ 0 :: ([53, 49, 50] ++ 0 :: []))))).drop 2
        = fn ++ 0 :: (md ++ 0 :: (blksizeName ++ 0 :: ([53, 49, 50] ++ 0 :: []))) := rfl
    simp only [TFTPPacketFactory.decode, hpt, hdrop, hparse, hens, hut,
      bind, Except.bind, pure, Except.pure]
  · simp only [Packet.encode, if_true, PType.code, hae, hme, hser,
      bind, Except.bind, pure, Except.pure]
    have hshape :
        List.intercalate [0]
            (([([0, 2] : List Byte) ++ fn, md,
               blksizeName ++ 0 :: [53, 49, 50]]).filter (fun p => p ≠ [])) ++ [0]
          = 0 :: 2 ::
              (fn ++ 0 :: (md ++ 0 :: (blksizeName
                ++ 0 :: ([53, 49, 50] ++ 0 :: [])))) := by
      simp [List.filter_cons, hmd, intercalate_three, blksizeName]
    rw [hshape]
    have hpt : PType.decode ((0 :: 2 :: (fn ++ 0 :: (md ++ 0 :: (blksizeName
        ++ 0 :: ([53, 49, 50] ++ 0 :: []))))).take 2) = .ok PType.wrq := rfl
    have hdrop : (0 :: 2 :: (fn ++ 0 :: (md ++ 0 :: (blksizeName
        ++ 0 :: ([53, 49, 50] ++ 0 :: []))))).drop 2
        = fn ++ 0 :: (md ++ 0 :: (blksizeName ++ 0 :: ([53, 49, 50] ++ 0 :: []))) := rfl
    simp only [TFTPPacketFactory.decode, hpt, hdrop, hparse, hens, hut,
      bind, Except.bind, pure, Except.pure]

end Aiotftp

namespace Aiotftp

/-- C1 (counterexample): inside the domain the claim quantifies over of valid packets
(NUL-free ASCII strings, request options drawn from the supported
set), the round trip is **not** the identity: a read request carrying
the supported option `blksize = 512` decodes back with an empty
options dict, an Error packet decodes with its message turned into raw
bytes with the trailing NUL attached, and an OACK with an empty
options dict does not decode at all. -/
theorem c1_roundtrip_counterexample :
    ((Packet.req false [102] [111, 99, 116, 101, 116]
        [(.str (blksizeName), .int 512)]).encode >>= TFTPPacketFactory.decode
      = .ok (.req false [102] [111, 99, 116, 101, 116] [])) ∧
    ¬((Packet.req false [102] [111, 99, 116, 101, 116]
        [(.str (blksizeName), .int 512)]).encode >>= TFTPPacketFactory.decode
      = .ok (.req false [102] [111, 99, 116, 101, 116]
          [(.str (blksizeName), .int 512)])) ∧
    ((Packet.err 1 (.str [65])).encode >>= TFTPPacketFactory.decode
      = .ok (.err 1 (.bytes [65, 0]))) ∧
    ((Packet.ock []).encode >>= TFTPPacketFactory.decode = .error ()) := by
  refine ⟨by decide, by decide, by decide, by decide⟩

/-- C1 (amended): `decode ∘ encode` is the identity exactly on Ack
packets, Data packets (block number in range) and requests with an
empty options dict (nonempty NUL-free ASCII filename/mode); a request
carrying the supported `blksize` option decodes back with the options
dropped, and an Error packet decodes to a message of raw bytes with
the trailing NUL appended. -/
theorem c1_roundtrip_amended :
    (∀ b : Int, 0 ≤ b → b < 65536 →
      (Packet.ack b).encode >>= TFTPPacketFactory.decode = .ok (.ack b)) ∧
    (∀ (b : Int) (d : List Byte), 0 ≤ b → b < 65536 →
      (Packet.dat b d).encode >>= TFTPPacketFactory.decode = .ok (.dat b d)) ∧
    (∀ (w : Bool) (fn md : List Byte), fn ≠ [] → md ≠ [] →
      (∀ c ∈ fn, c < 128 ∧ c ≠ 0) → (∀ c ∈ md, c < 128 ∧ c ≠ 0) →
      (Packet.req w fn md []).encode >>= TFTPPacketFactory.decode
        = .ok (.req w fn md [])) ∧
    (∀ (w : Bool) (fn md : List Byte), fn ≠ [] → md ≠ [] →
      (∀ c ∈ fn, c < 128 ∧ c ≠ 0) → (∀ c ∈ md, c < 128 ∧ c ≠ 0) →
      (Packet.req w fn md [(.str (blksizeName), .int 512)]).encode
          >>= TFTPPacketFactory.decode
        = .ok (.req w fn md [])) ∧
    (∀ (c : Int) (m : List Byte), 0 ≤ c → c < 65536 → (∀ x ∈ m, x < 128) →
      (Packet.err c (.str m)).encode >>= TFTPPacketFactory.decode
        = .ok (.err c (.bytes (m ++ [0])))) :=
  ⟨ack_roundtrip, dat_roundtrip, req_nooptions_roundtrip,
   req_blksize_option_decodes_empty, err_roundtrip_shape⟩

/-- Witness for C1 (amended) at concrete packets. -/
theorem c1_roundtrip_amended_witness :
    ((Packet.ack 513).encode >>= TFTPPacketFactory.decode = .ok (.ack 513)) ∧
    ((Packet.dat 2 [0, 255]).encode >>= TFTPPacketFactory.decode = .ok (.dat 2 [0, 255])) ∧
    ((Packet.req false [102] [111, 99, 116, 101, 116] []).encode
        >>= TFTPPacketFactory.decode
      = .ok (.req false [102] [111, 99, 116, 101, 116] [])) ∧
    ((Packet.req true [103] [110, 101, 116, 97, 115, 99, 105, 105]
        [(.str (blksizeName), .int 512)]).encode >>= TFTPPacketFactory.decode
      = .ok (.req true [103] [110, 101, 116, 97, 115, 99, 105, 105] [])) ∧
    ((Packet.err 3 (.str [65, 66])).encode >>= TFTPPacketFactory.decode
      = .ok (.err 3 (.bytes [65, 66, 0]))) :=
  ⟨c1_roundtrip_amended.1 513 (by decide) (by decide),
   c1_roundtrip_amended.2.1 2 [0, 255] (by decide) (by decide),
   c1_roundtrip_amended.2.2.1 false [102] [111, 99, 116, 101, 116]
     (by decide) (by decide) (by decide) (by decide),
   c1_roundtrip_amended.2.2.2.1 true [103] [110, 101, 116, 97, 115, 99, 105, 105]
     (by decide) (by decide) (by decide) (by decide),
   c1_roundtrip_amended.2.2.2.2 3 [65, 66] (by decide) (by decide) (by decide)⟩

/-- C2: `ensure_blksize` evaluated on the three ranges of the claim.  The
claim says values in (8, 65464] pass unchanged, larger values clamp,
and values ≤ 8 are rejected; the code does the opposite on the first
and third range: 512 raises `ValueError`, 4 passes unchanged, and only
the clamping branch behaves as claimed (70000 ↦ 65464). -/
theorem c2_ensure_blksize_behavior :
    ensure_blksize 512 = .error () ∧
    ensure_blksize 65464 = .error () ∧
    ensure_blksize 9 = .error () ∧
    ensure_blksize 4 = .ok 4 ∧
    ensure_blksize 8 = .ok 8 ∧
    ensure_blksize 0 = .ok 0 ∧
    ensure_blksize 70000 = .ok 65464 := by
  refine ⟨by decide, by decide, by decide, by decide, by decide, by decide, by decide⟩

end Aiotftp

namespace Aiotftp

/-- An unrecognized 2-byte opcode makes `decode` raise before looking
at anything else. -/
theorem decode_unknown_opcode (data : List Byte)
    (h1 : data.take 2 ≠ [0, 1]) (h2 : data.take 2 ≠ [0, 2])
    (h3 : data.take 2 ≠ [0, 3]) (h4 : data.take 2 ≠ [0, 4])
    (h5 : data.take 2 ≠ [0, 5]) (h6 : data.take 2 ≠ [0, 6]) :
    TFTPPacketFactory.decode data = .error () := by
  have hpt : PType.decode (data.take 2) = .error () := by
    simp [PType.decode, h1, h2, h3, h4, h5, h6]
  simp [TFTPPacketFactory.decode, hpt, bind, Except.bind]

/-- A read request with a dangling option name (odd field count after
filename/mode) decodes **successfully**, the dangling name silently
dropped by the `zip` truncation in `parse_request`. -/
theorem decode_dangling_option (fn md optname : List Byte)
    (hfn : fn ≠ []) (hmd : md ≠ []) (hon : optname ≠ [])
    (hfa : ∀ c ∈ fn, c < 128 ∧ c ≠ 0) (hma : ∀ c ∈ md, c < 128 ∧ c ≠ 0)
    (hon0 : (0 : Byte) ∉ optname) :
    TFTPPacketFactory.decode
        (0 :: 1 :: (fn ++ 0 :: (md ++ 0 :: (optname ++ 0 :: []))))
      = .ok (.req false fn md []) := by
  have hf128 : fn.all (fun c => c < 128) = true := by
    simp only [List.all_eq_true, decide_eq_true_eq]
    exact fun c hc => (hfa c hc).1
  have hm128 : md.all (fun c => c < 128) = true := by
    simp only [List.all_eq_true, decide_eq_true_eq]
    exact fun c hc => (hma c hc).1
  have hf0 : (0 : Byte) ∉ fn := fun h => (hfa 0 h).2 rfl
  have hm0 : (0 : Byte) ∉ md := fun h => (hma 0 h).2 rfl
  have hparse : parse_request (fn ++ 0 :: (md ++ 0 :: (optname ++ 0 :: [])))
      = .ok (fn, md, []) := by
    rw [parse_request, pysplit_append_sep 0 fn _ hf0, pysplit_append_sep 0 md _ hm0,
      pysplit_append_sep 0 optname _ hon0]
    simp [hfn, hmd, hon, pysplit, mkDict, slice2]
  have hens : ensure_request fn md [] supported_options_default = .ok (fn, md, []) := by
    simp [ensure_request, ascii_decode, hf128, bind, Except.bind, pure, Except.pure]
  have hut : utf8_decode md = .ok md := by simp [utf8_decode, hm128]
  have hpt : PType.decode ((0 :: 1 :: (fn ++ 0 :: (md ++ 0 :: (optname ++ 0 :: [])))).take 2)
      = .ok PType.rrq := rfl
  have hdrop : (0 :: 1 :: (fn ++ 0 :: (md ++ 0 :: (optname ++ 0 :: [])))).drop 2
      = fn ++ 0 :: (md ++ 0 :: (optname ++ 0 :: [])) := rfl
  simp only [TFTPPacketFactory.decode, hpt, hdrop, hparse, hens, hut,
    bind, Except.bind, pure, Except.pure]

/-- C7 (counterexample): the request
`|0|1|f|0|octet|0|blksize|0|` has a dangling option name after the
filename/mode pair, yet `decode` returns a packet (with the dangling
name dropped) instead of failing as the claim requires. -/
theorem c7_dangling_option_counterexample :
    TFTPPacketFactory.decode
        ([0, 1] ++ [102] ++ [0] ++ [111, 99, 116, 101, 116] ++ [0]
          ++ [98, 108, 107, 115, 105, 122, 101] ++ [0])
      = .ok (.req false [102] [111, 99, 116, 101, 116] []) ∧
    TFTPPacketFactory.decode
        ([0, 1] ++ [102] ++ [0] ++ [111, 99, 116, 101, 116] ++ [0]
          ++ [98, 108, 107, 115, 105, 122, 101] ++ [0])
      ≠ .error () := by
  refine ⟨by decide, by decide⟩

/-- C7 (amended): `decode` fails optname every datagram whose 2-byte opcode
is not one of the six recognized codes; but a request with an odd
NUL-delimited field count after filename/mode decodes successfully,
the dangling option name silently dropped (`decode` rejects a request
body only when it has fewer than two nonempty fields). -/
theorem c7_decode_rejects_amended :
    (∀ data : List Byte,
      data.take 2 ≠ [0, 1] → data.take 2 ≠ [0, 2] → data.take 2 ≠ [0, 3] →
      data.take 2 ≠ [0, 4] → data.take 2 ≠ [0, 5] → data.take 2 ≠ [0, 6] →
      TFTPPacketFactory.decode data = .error ()) ∧
    (∀ fn md optname : List Byte, fn ≠ [] → md ≠ [] → optname ≠ [] →
      (∀ c ∈ fn, c < 128 ∧ c ≠ 0) → (∀ c ∈ md, c < 128 ∧ c ≠ 0) →
      (0 : Byte) ∉ optname →
      TFTPPacketFactory.decode
          (0 :: 1 :: (fn ++ 0 :: (md ++ 0 :: (optname ++ 0 :: []))))
        = .ok (.req false fn md [])) :=
  ⟨decode_unknown_opcode, decode_dangling_option⟩

/-- Witness for C7 (amended): an unknown opcode `|0|9|` fails, a
dangling `blksize` name is dropped. -/
theorem c7_decode_rejects_amended_witness :
    TFTPPacketFactory.decode [0, 9, 1, 2] = .error () ∧
    TFTPPacketFactory.decode
        (0 :: 1 :: ([102] ++ 0 :: ([111, 99, 116, 101, 116] ++ 0 ::
          ([98, 108, 107, 115, 105, 122, 101] ++ 0 :: []))))
      = .ok (.req false [102] [111, 99, 116, 101, 116] []) :=
  ⟨c7_decode_rejects_amended.1 [0, 9, 1, 2]
     (by decide) (by decide) (by decide) (by decide) (by decide) (by decide),
   c7_decode_rejects_amended.2 [102] [111, 99, 116, 101, 116]
     [98, 108, 107, 115, 105, 122, 101]
     (by decide) (by decide) (by decide) (by decide) (by decide) (by decide)⟩

end Aiotftp

namespace Aiotftp

set_option maxRecDepth 40000 in
/-- C4: receiving `Ack(2)` in the windowsize-4 scenario does **not**
resend blocks 3 and 4 only.  The handler pops blocks 1–2 off the
window, reads two fresh 512-byte chunks from the file into new Data
packets numbered 4 and 5 (duplicating block number 4 with different
data), and transmits all four queued packets. -/
theorem c4_windowsize_ack_divergence :
    RRQ.datagram_received_windowsize c4_initial [0, 4, 0, 2] (0, 7) 4
      = .ok { c4_initial with
          counter := 5,
          packets := [some (.dat 3 (List.replicate 512 3)),
                      some (.dat 4 (List.replicate 512 4)),
                      some (.dat 4 (List.replicate 512 5)),
                      some (.dat 5 (List.replicate 512 6))],
          file := { remaining := [], chunk_size := 512, finished := false },
          sent := [([0, 3, 0, 3] ++ List.replicate 512 3, (0, 7)),
                   ([0, 3, 0, 4] ++ List.replicate 512 4, (0, 7)),
                   ([0, 3, 0, 4] ++ List.replicate 512 5, (0, 7)),
                   ([0, 3, 0, 5] ++ List.replicate 512 6, (0, 7))],
          conn_resets := 1 } ∧
    (RRQ.datagram_received_windowsize c4_initial [0, 4, 0, 2] (0, 7) 4).map
        (fun s => s.sent.length) ≠ .ok 2 := by
  refine ⟨by decide, by decide⟩

/-- C6: when the accepted options contain the `str` key `tsize`,
`_open_file_handler` replaces the whole `_r_options` mapping by the
bare integer file size (777 here) instead of updating the `tsize`
entry and keeping the other options. -/
theorem c6_tsize_overwrites_options :
    RRQ.open_file_handler
        [(.str (tsizeName), .bytes [48]), (.str (blksizeName), .int 1024)]
        777 1
      = (1, ROptions.int 777, none) ∧
    ROptions.int 777 ≠ ROptions.dict
        [(.str (tsizeName), .int 777), (.str (blksizeName), .int 1024)] := by
  refine ⟨by decide, by decide⟩

/-- C8 (counterexample): an **undecodable** datagram from a foreign
port produces no unknown-TID error packet at all — `decode` raises on
the first line of the handler, before the TID check runs — so the
claim is false for such inbound datagrams (the session state is
nevertheless unchanged). -/
theorem c8_undecodable_foreign_counterexample :
    (51 : Nat) ≠ (50 : Nat) ∧
    RRQ.datagram_received_default c8_state [9, 9] (1, 51) = .ok c8_state := by
  refine ⟨by decide, by decide⟩

/-- C8 (amended): for every **decodable** datagram from a foreign
port, the session sends the encoded `Error(code=5)` packet to the
foreign address — twice, because the handler evaluates
`is_correct_tid` in both `if` conditions — and every other part of the
session state (counter, window, file handle, timers) is unchanged. -/
theorem c8_foreign_tid_amended (st : RRQState) (data : List Byte) (addr : Addr)
    (p : Packet) (hdec : TFTPPacketFactory.decode data = .ok p)
    (hport : addr.2 ≠ st.remote.2) :
    RRQ.datagram_received_default st data addr
      = .ok { st with sent := st.sent ++ [(err5_encoded, addr), (err5_encoded, addr)] } := by
  have hne : ¬(st.remote.2 = addr.2) := fun h => hport h.symm
  have htid : is_correct_tid st.remote addr = (false, [(err5_encoded, addr)]) := by
    simp [is_correct_tid, hne]
  simp only [RRQ.datagram_received_default, hdec, htid]
  simp

/-- Witness for C8 (amended): `Ack(1)` from foreign port 51 reaching
the session whose TID is port 50. -/
theorem c8_foreign_tid_amended_witness :
    TFTPPacketFactory.decode [0, 4, 0, 1] = .ok (.ack 1) ∧
    RRQ.datagram_received_default c8_state [0, 4, 0, 1] (1, 51)
      = .ok { c8_state with
          sent := [(err5_encoded, (1, 51)), (err5_encoded, (1, 51))] } :=
  ⟨by decide,
   c8_foreign_tid_amended c8_state [0, 4, 0, 1] (1, 51) (.ack 1) (by decide) (by decide)⟩

/-- C9: `ensure_path` accepts `a/../../secret` (the lexical
`relative_to` check passes because the joined path literally extends
the working directory), returning a path that resolves **outside** the
working directory `/home/user`: opening it touches `/home/secret`.
Path components are byte strings; `[46, 46]` is `..`. -/
theorem c9_ensure_path_escape :
    ensure_path [[104, 111, 109, 101], [117, 115, 101, 114]] ([97, 47, 46, 46, 47, 46, 46, 47, 115, 101, 99, 114, 101, 116])
      = .ok [[104, 111, 109, 101], [117, 115, 101, 114], [97], [46, 46], [46, 46],
             [115, 101, 99, 114, 101, 116]] ∧
    resolveParts [[104, 111, 109, 101], [117, 115, 101, 114], [97], [46, 46], [46, 46],
        [115, 101, 99, 114, 101, 116]]
      = [[104, 111, 109, 101], [115, 101, 99, 114, 101, 116]] ∧
    List.isPrefixOf [[104, 111, 109, 101], [117, 115, 101, 114]]
        [[104, 111, 109, 101], [115, 101, 99, 114, 101, 116]] = false := by
  refine ⟨by decide, by decide, by decide⟩

/-- C10: the transfer-ID check compares only the sender UDP port.
Any datagram whose source port equals the peer port passes
`is_correct_tid` (no error is sent), whatever its host, and the
data-phase handler treats it exactly as if it came from the peer
address. -/
theorem c10_tid_ignores_host :
    (∀ (r : Addr) (h : Nat), is_correct_tid r (h, r.2) = (true, [])) ∧
    (∀ (st : RRQState) (data : List Byte) (h : Nat),
      RRQ.datagram_received_default st data (h, st.remote.2)
        = RRQ.datagram_received_default st data st.remote) := by
  constructor
  · intro r h
    simp [is_correct_tid]
  · intro st data h
    have htid : is_correct_tid st.remote (h, st.remote.2)
        = is_correct_tid st.remote st.remote := by
      simp [is_correct_tid]
    simp only [RRQ.datagram_received_default, htid]

end Aiotftp

namespace Aiotftp

set_option maxRecDepth 40000 in
/-- C5 (counterexample): a correctly sequenced Data packet with a
510-byte payload — shorter than `blksize` 512 — does **not** terminate
the transfer: the handler compares the encoded packet size (514 bytes,
header included) against `blksize`, so the transport stays open (while
the file handler, which compares the bare payload, is closed). -/
theorem c5_short_payload_counterexample :
    TFTPPacketFactory.decode ([0, 3, 0, 1] ++ List.replicate 510 7)
      = .ok (.dat 1 (List.replicate 510 7)) ∧
    (List.replicate 510 7).length < 512 ∧
    (WRQ.datagram_received c5_state ([0, 3, 0, 1] ++ List.replicate 510 7) (0, 9)).map
        (fun s => s.transport_closed) = .ok false ∧
    (WRQ.datagram_received c5_state ([0, 3, 0, 1] ++ List.replicate 510 7) (0, 9)).map
        (fun s => s.file.closed) = .ok true := by
  refine ⟨by decide, by decide, by decide, by decide⟩

/-- C5 (amended): a correctly sequenced Data packet terminates the
write session when its **encoded size** (payload + 4 header bytes) is
below `blksize` — equivalently, the payload is shorter than
`blksize - 4`: the session then acks it, appends the payload to the
file, closes the file and closes its transport.  A full-`blksize`
payload acks and writes but closes nothing. -/
theorem c5_completion_amended (st : WRQState) (data payload : List Byte)
    (hdec : TFTPPacketFactory.decode data = .ok (.dat ((st.counter + 1) % 65536) payload))
    (hopen : st.file.closed = false)
    (hchunk : (st.file.chunk_size : Int) = st.blksize)
    (hpos : 0 < st.blksize) :
    ((payload.length : Int) + 4 < st.blksize →
      WRQ.datagram_received st data st.remote = .ok
        { st with
            conn_resets := st.conn_resets + 1,
            counter := (st.counter + 1) % 65536,
            sent := st.sent ++ [([0, 4, (((st.counter + 1) % 65536) / 256).toNat,
              (((st.counter + 1) % 65536) % 256).toNat], st.remote)],
            file := { st.file with contents := st.file.contents ++ payload, closed := true },
            transport_closed := true }) ∧
    ((payload.length : Int) = st.blksize →
      WRQ.datagram_received st data st.remote = .ok
        { st with
            conn_resets := st.conn_resets + 1,
            counter := (st.counter + 1) % 65536,
            sent := st.sent ++ [([0, 4, (((st.counter + 1) % 65536) / 256).toNat,
              (((st.counter + 1) % 65536) % 256).toNat], st.remote)],
            file := { st.file with contents := st.file.contents ++ payload } }) := by
  have hb0 : 0 ≤ (st.counter + 1) % 65536 := Int.emod_nonneg _ (by norm_num)
  have hb1 : (st.counter + 1) % 65536 < 65536 := Int.emod_lt_of_pos _ (by norm_num)
  have hp : pack_short ((st.counter + 1) % 65536)
      = .ok [(((st.counter + 1) % 65536) / 256).toNat,
             (((st.counter + 1) % 65536) % 256).toNat] := by
    simp [pack_short, hb0, hb1]
  have htid : is_correct_tid st.remote st.remote = (true, []) := by
    simp [is_correct_tid]
  have hseq : (Packet.dat ((st.counter + 1) % 65536) payload).is_correct_sequence
      ((st.counter + 1) % 65536) = true := by
    simp [Packet.is_correct_sequence, Packet.block_no]
  have hsize : (Packet.dat ((st.counter + 1) % 65536) payload).get_size
      = .ok ((payload.length : Int) + 4) := by
    simp only [Packet.get_size, Packet.encode, hp, PType.code,
      bind, Except.bind, pure, Except.pure]
    show Except.ok
        ((([0, 3] ++ [(((st.counter + 1) % 65536) / 256).toNat,
            (((st.counter + 1) % 65536) % 256).toNat] ++ payload).length : Int))
      = _
    simp [List.length_append]
    omega
  constructor
  · intro hshort
    have hwrap : FileWriter.write st.file payload
        = .ok ((payload.length : Int),
            { st.file with contents := st.file.contents ++ payload, closed := true }) := by
      have hlt : payload.length < st.file.chunk_size := by omega
      simp [FileWriter.write, hopen, hlt]
    simp only [WRQ.datagram_received, hdec, htid, List.append_nil, Packet.is_data,
      hseq, Packet.encode, hp, PType.code, Packet.data_field, hwrap, hsize,
      bind, Except.bind, pure, Except.pure]
    simp only [true_and, if_true]
    rw [if_pos hshort]
    rfl
  · intro hfull
    have hwrap : FileWriter.write st.file payload
        = .ok ((payload.length : Int),
            { st.file with contents := st.file.contents ++ payload }) := by
      have hlt : ¬(payload.length < st.file.chunk_size) := by omega
      have hne : ¬payload.isEmpty := by
        have : payload.length ≠ 0 := by omega
        simpa [List.isEmpty_iff_length_eq_zero] using this
      simp [FileWriter.write, hopen, hlt, hne]
    simp only [WRQ.datagram_received, hdec, htid, List.append_nil, Packet.is_data,
      hseq, Packet.encode, hp, PType.code, Packet.data_field, hwrap, hsize,
      bind, Except.bind, pure, Except.pure]
    simp only [true_and, if_true]
    rw [if_neg (by omega)]
    rfl

set_option maxRecDepth 40000 in
/-- Witness for C5 (amended): with `blksize` 512, a 100-byte payload
closes file and transport; a 512-byte payload closes neither. -/
theorem c5_completion_amended_witness :
    (WRQ.datagram_received c5_state ([0, 3, 0, 1] ++ List.replicate 100 7) (0, 9)
      = .ok
        { c5_state with
            conn_resets := 1, counter := 1,
            sent := [([0, 4, 0, 1], (0, 9))],
            file := { c5_state.file with contents := List.replicate 100 7, closed := true },
            transport_closed := true }) ∧
    (WRQ.datagram_received c5_state ([0, 3, 0, 1] ++ List.replicate 512 7) (0, 9)
      = .ok
        { c5_state with
            conn_resets := 1, counter := 1,
            sent := [([0, 4, 0, 1], (0, 9))],
            file := { c5_state.file with contents := List.replicate 512 7 } }) := by
  constructor
  · have h := (c5_completion_amended c5_state ([0, 3, 0, 1] ++ List.replicate 100 7)
      (List.replicate 100 7) (by decide) (by decide) (by decide) (by decide)).1
      (by decide)
    exact h
  · have h := (c5_completion_amended c5_state ([0, 3, 0, 1] ++ List.replicate 512 7)
      (List.replicate 512 7) (by decide) (by decide) (by decide) (by decide)).2
      (by decide)
    exact h

end Aiotftp
